import Mathlib

/-!
Shallow embedding of `src/trading/monitoring.py` (class `MonitoringPrice`).

Modelling choices:
- Prices and volumes are modelled as exact rationals (`ℚ`); the Python code
  uses IEEE floats.  `numpy` square root (inside `pandas_ta.stdev`) is
  modelled by `Rat.sqrt`; every concrete input below evaluates it at a
  perfect square (in fact at `0`), where the two agree exactly.
- The pandas `DataFrame` held in `self.data` is modelled as a `List Bar`
  ordered as the frame's rows; `self.prepared_data` as a column-oriented
  record `Prepared` of equal-length lists.
- `df.loc[ts] = row` (pandas label assignment with enlargement) overwrites
  the row whose index label equals `ts` when present, and otherwise appends
  the new row at the END of the frame, regardless of chronological order.
  This is `setRow` below.
- pandas missing values (`NaN`): `ta.ema` / `ta.stdev` yield `NaN` for the
  first 19 rows (window 20) and `None` columns when fewer than 20 rows
  exist; arithmetic on missing values stays missing and comparisons against
  missing values are `False`.  Missing is modelled as `Option.none`.
- The Telegram sink `send_message_to_telegram` lives outside this
  repository's core file; its outcome (normal return or raised exception)
  is passed in as a boolean `sinkOk`, and the emitted notifications are
  recorded as values of `Notice`.
-/

namespace Monitoring

/-- One row of `self.data`: an OHLCV bar keyed by its open time
(the `DataFrame` index) plus the `Complete` flag. -/
structure Bar where
  t : ℕ
  o : ℚ
  hi : ℚ
  lo : ℚ
  c : ℚ
  v : ℚ
  complete : Bool
deriving DecidableEq

/-- A websocket kline update as unpacked at the top of `stream_candles`:
`start_time` (`msg['k']['t']`), OHLCV floats, and the `x` (is-final) flag. -/
structure Upd where
  t : ℕ
  o : ℚ
  hi : ℚ
  lo : ℚ
  c : ℚ
  v : ℚ
  x : Bool
deriving DecidableEq

/-- A raw historical kline as returned by `client.get_historical_klines`
(before the `Complete` column is attached). -/
structure RawBar where
  t : ℕ
  o : ℚ
  hi : ℚ
  lo : ℚ
  c : ℚ
  v : ℚ
deriving DecidableEq

/-- The bootstrap failure: with an empty kline list, `get_most_recent`
raises inside pandas (`df.iloc[:, 0]` on a frame with no columns).
The spec's name for this fatal condition is `InvalidBootstrap`. -/
inductive BootstrapError where
  | InvalidBootstrap
deriving DecidableEq

/-- Embedding of `get_most_recent` (monitoring.py lines 94-127): build the
frame from the klines and attach `df['Complete'] =
[True for _ in range(len(df) - 1)] + [False]`.  An empty kline list makes
the pandas pipeline raise, modelled as `BootstrapError.InvalidBootstrap`. -/
def get_most_recent (bars : List RawBar) : Except BootstrapError (List Bar) :=
  if bars.isEmpty then
    Except.error BootstrapError.InvalidBootstrap
  else
    Except.ok (List.zipWith
      (fun (r : RawBar) (flag : Bool) =>
        { t := r.t, o := r.o, hi := r.hi, lo := r.lo, c := r.c, v := r.v,
          complete := flag })
      bars
      (List.replicate (bars.length - 1) true ++ [false]))

/-- Embedding of `self.data.loc[start_time] = [first, high, low, close,
volume, complete]` (monitoring.py line 147): if a row with this index label
exists it is overwritten in place, otherwise the row is appended at the end
of the frame (pandas setting-with-enlargement), whatever its timestamp. -/
def setRow (data : List Bar) (b : Bar) : List Bar :=
  if data.any (fun r => r.t = b.t) then
    data.map (fun r => if r.t = b.t then b else r)
  else
    data ++ [b]

/-- The bar written by `stream_candles` for an update. -/
def barOfUpd (u : Upd) : Bar :=
  { t := u.t, o := u.o, hi := u.hi, lo := u.lo, c := u.c, v := u.v,
    complete := u.x }

/-- Moving-average window, `length=20` in `ta.ema` / `ta.stdev`. -/
def win : ℕ := 20

/-- Smoothing factor of `close.ewm(span=20, adjust=False)`: `2 / (20 + 1)`. -/
def alpha : ℚ := 2 / 21

/-- Arithmetic mean, as `pandas.Series.mean` on a full window. -/
def listMean (xs : List ℚ) : ℚ := xs.sum / (xs.length : ℚ)

/-- Sample variance with `ddof = 1`, as `rolling(20).var(ddof=1)` computes
on one full window. -/
def sampleVar (xs : List ℚ) : ℚ :=
  let m := listMean xs
  (xs.map (fun x => (x - m) ^ 2)).sum / ((xs.length - 1 : ℕ) : ℚ)

/-- The recursive tail of `ewm(span=20, adjust=False).mean()` after the
seed value: each output is `(1 - alpha) * previous + alpha * current`. -/
def emaFrom (prev : ℚ) : List ℚ → List ℚ
  | [] => []
  | x :: xs =>
      let e := (1 - alpha) * prev + alpha * x
      e :: emaFrom e xs

/-- Embedding of `ta.ema(df['Close'], length=20)` (pandas_ta with its
default SMA seed): `None` when fewer than 20 closes exist; otherwise the
first 19 entries are missing, entry 19 is the SMA of the first 20 closes,
and later entries follow the `ewm` recursion. -/
def emaSeries (closes : List ℚ) : List (Option ℚ) :=
  if closes.length < win then
    List.replicate closes.length none
  else
    let seed := listMean (closes.take win)
    List.replicate (win - 1) none ++ [some seed] ++
      (emaFrom seed (closes.drop win)).map some

/-- Embedding of `ta.stdev(df['Close'], length=20)`: rolling sample
standard deviation over windows of 20, missing before 20 observations. -/
def stdSeries (closes : List ℚ) : List (Option ℚ) :=
  (List.range closes.length).map (fun i =>
    if i + 1 < win then none
    else some (Rat.sqrt (sampleVar ((closes.take (i + 1)).drop (i + 1 - win)))))

/-- Missing-propagating addition, as pandas `NaN` arithmetic. -/
def optAdd : Option ℚ → Option ℚ → Option ℚ
  | some a, some b => some (a + b)
  | _, _ => none

/-- Missing-propagating subtraction, as pandas `NaN` arithmetic. -/
def optSub : Option ℚ → Option ℚ → Option ℚ
  | some a, some b => some (a - b)
  | _, _ => none

/-- Missing-propagating scalar multiple, as `2.5 * df['std']`. -/
def optScale (k : ℚ) : Option ℚ → Option ℚ
  | some a => some (k * a)
  | none => none

/-- Pandas comparison `close <= band`: `False` when the band is missing. -/
def optLe (c : ℚ) : Option ℚ → Bool
  | some b => decide (c ≤ b)
  | none => false

/-- Pandas comparison `close >= band`: `False` when the band is missing. -/
def optGe (c : ℚ) : Option ℚ → Bool
  | some b => decide (b ≤ c)
  | none => false

/-- Embedding of `df.loc[mask, 'position'] = v`: overwrite the entries
selected by the boolean mask, keep the rest. -/
def maskAssign (mask : List Bool) (v : Int) (ps : List Int) : List Int :=
  List.zipWith (fun b p => if b then v else p) mask ps

/-- The columns of `self.prepared_data` that the rest of the program
reads: the close series, the indicator columns added by `define_strategy`,
and the per-row `position` classification. -/
structure Prepared where
  closes : List ℚ
  sma : List (Option ℚ)
  std : List (Option ℚ)
  upper_band : List (Option ℚ)
  lower_band : List (Option ℚ)
  position : List Int
deriving DecidableEq

/-- Column `df['upper_band'] = df['sma'] + 2.5 * df['std']`. -/
def upperBandSeries (closes : List ℚ) : List (Option ℚ) :=
  List.zipWith (fun m s => optAdd m (optScale (5 / 2) s))
    (emaSeries closes) (stdSeries closes)

/-- Column `df['lower_band'] = df['sma'] - 2.5 * df['std']`. -/
def lowerBandSeries (closes : List ℚ) : List (Option ℚ) :=
  List.zipWith (fun m s => optSub m (optScale (5 / 2) s))
    (emaSeries closes) (stdSeries closes)

/-- Mask `buy_condition = df['Close'] <= df['lower_band']`. -/
def buyCondition (closes : List ℚ) : List Bool :=
  List.zipWith optLe closes (lowerBandSeries closes)

/-- Mask `sell_condition = df['Close'] >= df['upper_band']`. -/
def sellCondition (closes : List ℚ) : List Bool :=
  List.zipWith optGe closes (upperBandSeries closes)

/-- The `position` column after the three assignments of `define_strategy`
in program order: `df['position'] = 0`, then `df.loc[buy_condition,
'position'] = 1`, then `df.loc[sell_condition, 'position'] = -1` (so the
-1 assignment overwrites the 1 assignment wherever both masks hold). -/
def positionSeries (closes : List ℚ) : List Int :=
  maskAssign (sellCondition closes) (-1)
    (maskAssign (buyCondition closes) 1 (List.replicate closes.length 0))

/-- Embedding of the body of `define_strategy` (monitoring.py lines
153-171) as a pure function of the close column. -/
def define_strategy_df (closes : List ℚ) : Prepared :=
  { closes := closes, sma := emaSeries closes, std := stdSeries closes,
    upper_band := upperBandSeries closes, lower_band := lowerBandSeries closes,
    position := positionSeries closes }

/-- The live mutable fields of a `MonitoringPrice` instance: `self.data`,
`self.prepared_data` (None before the first `define_strategy` call),
`self.position`, and whether `self.twm.stop()` has been called. -/
structure MState where
  data : List Bar
  prepared : Option Prepared
  position : Int
  stopped : Bool
deriving DecidableEq

/-- Embedding of the method `define_strategy`: read `self.data` (a copy),
derive the indicator columns, store the result in `self.prepared_data`.
Nothing else on the instance is touched. -/
def define_strategy (st : MState) : MState :=
  { st with prepared := some (define_strategy_df (st.data.map Bar.c)) }

/-- The two notifications `execute_messages` can push to the sink:
the buy message and the sell message (each mentioning `self.symbol`). -/
inductive Notice where
  | enterSig
  | exitSig
deriving DecidableEq

/-- Embedding of `execute_messages` (monitoring.py lines 173-193).
`sinkOk = false` means `send_message_to_telegram` raises.  Faithful to the
source order: on a firing branch `self.position` is assigned FIRST and the
sink is called afterwards; any exception inside the `try` block (missing or
empty `prepared_data`, or a sink failure) is caught and answered with
`self.twm.stop()`, with the already-performed position assignment kept.
Returns the new state and the list of successfully sent notifications. -/
def execute_messages (sinkOk : Bool) (st : MState) : MState × List Notice :=
  match st.prepared with
  | none => ({ st with stopped := true }, [])
  | some p =>
    match p.position.getLast? with
    | none => ({ st with stopped := true }, [])
    | some lastPos =>
      if lastPos = 1 ∧ st.position = 0 then
        let st1 := { st with position := 1 }
        if sinkOk then (st1, [Notice.enterSig])
        else ({ st1 with stopped := true }, [])
      else if lastPos = -1 ∧ st.position = 1 then
        let st1 := { st with position := 0 }
        if sinkOk then (st1, [Notice.exitSig])
        else ({ st1 with stopped := true }, [])
      else (st, [])

/-- Embedding of `stream_candles` (monitoring.py lines 129-151): write the
update's row into `self.data` via label assignment, then, exactly when the
update's `x` flag is set, run `define_strategy` and `execute_messages`.
The third component records whether that recomputation branch ran. -/
def stream_candles (sinkOk : Bool) (st : MState) (u : Upd) :
    MState × List Notice × Bool :=
  let st1 := { st with data := setRow st.data (barOfUpd u) }
  if u.x then
    let st2 := define_strategy st1
    let res := execute_messages sinkOk st2
    (res.1, res.2, true)
  else
    (st1, [], false)

/-- One signal-machine step, driven through `execute_messages`: the
engine holds position `pos` and the freshly prepared data's last row
carries classification `cls`; the sink succeeds.  Returns the new position
and the notifications sent. -/
def signalStep (pos : Int) (cls : Int) : Int × List Notice :=
  let p : Prepared :=
    { closes := [0], sma := [none], std := [none],
      upper_band := [none], lower_band := [none], position := [cls] }
  let st : MState :=
    { data := [], prepared := some p, position := pos, stopped := false }
  let res := execute_messages true st
  (res.1.position, res.2)

/-- Fold `signalStep` over a list of classifications, accumulating every
notification sent along the way. -/
def runSignals (pos : Int) (cs : List Int) : Int × List Notice :=
  cs.foldl
    (fun acc c =>
      let step := signalStep acc.1 c
      (step.1, acc.2 ++ step.2))
    (pos, [])

/-! Auxiliary lemmas about the embedded definitions. -/

theorem length_emaFrom (p : ℚ) (xs : List ℚ) :
    (emaFrom p xs).length = xs.length := by
  induction xs generalizing p with
  | nil => rfl
  | cons x xs ih => simp [emaFrom, ih]

theorem length_emaSeries (closes : List ℚ) :
    (emaSeries closes).length = closes.length := by
  have hw : 0 < win := by decide
  by_cases h : closes.length < win
  · simp [emaSeries, h]
  · simp [emaSeries, h, length_emaFrom]
    omega

theorem length_stdSeries (closes : List ℚ) :
    (stdSeries closes).length = closes.length := by
  simp [stdSeries]

theorem length_upperBandSeries (closes : List ℚ) :
    (upperBandSeries closes).length = closes.length := by
  simp [upperBandSeries, length_emaSeries, length_stdSeries]

theorem length_lowerBandSeries (closes : List ℚ) :
    (lowerBandSeries closes).length = closes.length := by
  simp [lowerBandSeries, length_emaSeries, length_stdSeries]

theorem length_buyCondition (closes : List ℚ) :
    (buyCondition closes).length = closes.length := by
  simp [buyCondition, length_lowerBandSeries]

theorem length_sellCondition (closes : List ℚ) :
    (sellCondition closes).length = closes.length := by
  simp [sellCondition, length_upperBandSeries]

theorem length_positionSeries (closes : List ℚ) :
    (positionSeries closes).length = closes.length := by
  simp [positionSeries, maskAssign, length_sellCondition, length_buyCondition]

theorem getElem?_buyCondition (closes : List ℚ) (i : ℕ) (cl : ℚ) (lb : Option ℚ)
    (hcl : closes[i]? = some cl) (hlb : (lowerBandSeries closes)[i]? = some lb) :
    (buyCondition closes)[i]? = some (optLe cl lb) := by
  simp [buyCondition, List.getElem?_zipWith, hcl, hlb]

theorem getElem?_sellCondition (closes : List ℚ) (i : ℕ) (cl : ℚ) (ub : Option ℚ)
    (hcl : closes[i]? = some cl) (hub : (upperBandSeries closes)[i]? = some ub) :
    (sellCondition closes)[i]? = some (optGe cl ub) := by
  simp [sellCondition, List.getElem?_zipWith, hcl, hub]

theorem getElem?_positionSeries (closes : List ℚ) (i : ℕ) (cl : ℚ) (ub lb : Option ℚ)
    (hi : i < closes.length)
    (hcl : closes[i]? = some cl)
    (hub : (upperBandSeries closes)[i]? = some ub)
    (hlb : (lowerBandSeries closes)[i]? = some lb) :
    (positionSeries closes)[i]? =
      some (if optGe cl ub then -1 else if optLe cl lb then 1 else 0) := by
  have hbuy := getElem?_buyCondition closes i cl lb hcl hlb
  have hsell := getElem?_sellCondition closes i cl ub hcl hub
  simp [positionSeries, maskAssign, List.getElem?_zipWith, hbuy, hsell,
    List.getElem?_replicate, hi]

theorem getLast?_positionSeries (closes : List ℚ) (cl : ℚ) (ub lb : Option ℚ)
    (hcl : closes.getLast? = some cl)
    (hub : (upperBandSeries closes).getLast? = some ub)
    (hlb : (lowerBandSeries closes).getLast? = some lb) :
    (positionSeries closes).getLast? =
      some (if optGe cl ub then -1 else if optLe cl lb then 1 else 0) := by
  have hne : closes ≠ [] := by
    intro h
    rw [h] at hcl
    simp at hcl
  have hpos : 0 < closes.length := List.length_pos.mpr hne
  rw [List.getLast?_eq_getElem?] at hcl hub hlb ⊢
  rw [length_upperBandSeries] at hub
  rw [length_lowerBandSeries] at hlb
  rw [length_positionSeries]
  exact getElem?_positionSeries closes (closes.length - 1) cl ub lb
    (by omega) hcl hub hlb

theorem getElem?_stdSeries_underflow (closes : List ℚ) (i : ℕ)
    (hi : i < closes.length) (hwin : i + 1 < win) :
    (stdSeries closes)[i]? = some none := by
  simp [stdSeries, List.getElem?_range hi, hwin]

theorem getLast?_upperBandSeries_underflow (closes : List ℚ)
    (h1 : 0 < closes.length) (h2 : closes.length < win) :
    (upperBandSeries closes).getLast? = some none := by
  have hstd : (stdSeries closes)[closes.length - 1]? = some none :=
    getElem?_stdSeries_underflow closes (closes.length - 1) (by omega) (by omega)
  have hsma : (emaSeries closes)[closes.length - 1]? = some none := by
    have hrep : emaSeries closes = List.replicate closes.length none := by
      simp [emaSeries, h2]
    rw [hrep, List.getElem?_replicate_of_lt (by omega)]
  rw [List.getLast?_eq_getElem?, length_upperBandSeries]
  simp [upperBandSeries, List.getElem?_zipWith, hstd, hsma, optAdd]

theorem getLast?_lowerBandSeries_underflow (closes : List ℚ)
    (h1 : 0 < closes.length) (h2 : closes.length < win) :
    (lowerBandSeries closes).getLast? = some none := by
  have hstd : (stdSeries closes)[closes.length - 1]? = some none :=
    getElem?_stdSeries_underflow closes (closes.length - 1) (by omega) (by omega)
  have hsma : (emaSeries closes)[closes.length - 1]? = some none := by
    have hrep : emaSeries closes = List.replicate closes.length none := by
      simp [emaSeries, h2]
    rw [hrep, List.getElem?_replicate_of_lt (by omega)]
  rw [List.getLast?_eq_getElem?, length_lowerBandSeries]
  simp [lowerBandSeries, List.getElem?_zipWith, hstd, hsma, optSub]

theorem execute_messages_data (sinkOk : Bool) (st : MState) :
    ((execute_messages sinkOk st).1).data = st.data := by
  unfold execute_messages
  split
  · rfl
  · split
    · rfl
    · split
      · split <;> rfl
      · split
        · split <;> rfl
        · rfl

theorem execute_messages_neutral (sinkOk : Bool) (st : MState) (p : Prepared)
    (hp : st.prepared = some p) (hl : p.position.getLast? = some 0) :
    execute_messages sinkOk st = (st, []) := by
  simp [execute_messages, hp, hl]

theorem stream_candles_data (sinkOk : Bool) (st : MState) (u : Upd) :
    ((stream_candles sinkOk st u).1).data = setRow st.data (barOfUpd u) := by
  cases hx : u.x <;>
    simp [stream_candles, hx, execute_messages_data, define_strategy]

theorem mem_setRow (data : List Bar) (b : Bar) : b ∈ setRow data b := by
  unfold setRow
  split
  · rename_i hany
    rcases List.any_eq_true.mp hany with ⟨r, hr, ht⟩
    exact List.mem_map.mpr ⟨r, hr, if_pos (of_decide_eq_true ht)⟩
  · simp

theorem setRow_append (data : List Bar) (b : Bar)
    (h : ∀ r ∈ data, r.t ≠ b.t) :
    setRow data b = data ++ [b] := by
  unfold setRow
  rw [if_neg]
  simp only [List.any_eq_true, decide_eq_true_eq]
  rintro ⟨r, hr, ht⟩
  exact h r hr ht

theorem signalStep_eq (pos cls : Int) :
    signalStep pos cls =
      if cls = 1 ∧ pos = 0 then (1, [Notice.enterSig])
      else if cls = -1 ∧ pos = 1 then (0, [Notice.exitSig])
      else (pos, []) := by
  simp only [signalStep, execute_messages, List.getLast?_singleton]
  split
  · simp
  · split <;> simp

theorem runSignals_frozen_aux (pos : Int) (h0 : pos ≠ 0) (h1 : pos ≠ 1)
    (cs : List Int) (acc : Int × List Notice) (hacc : acc.1 = pos) :
    cs.foldl
      (fun acc c =>
        let step := signalStep acc.1 c
        (step.1, acc.2 ++ step.2))
      acc = acc := by
  induction cs generalizing acc with
  | nil => rfl
  | cons c cs ih =>
    have hstep : signalStep acc.1 c = (acc.1, []) := by
      rw [signalStep_eq]
      rw [if_neg, if_neg]
      · rintro ⟨-, h⟩
        exact h1 (hacc ▸ h)
      · rintro ⟨-, h⟩
        exact h0 (hacc ▸ h)
    simp only [List.foldl_cons, hstep]
    have : (acc.1, acc.2 ++ ([] : List Notice)) = acc := by simp
    rw [this]
    exact ih acc hacc

/-! Claim theorems. -/

/-- Example prepared frame whose last (and only) row is classified 1
(oversold), used to exercise `execute_messages`. -/
def oversoldPrepared : Prepared :=
  { closes := [0], sma := [none], std := [none],
    upper_band := [none], lower_band := [none], position := [1] }

/-- Engine state holding `oversoldPrepared` while flat. -/
def flatOversoldState : MState :=
  { data := [], prepared := some oversoldPrepared, position := 0,
    stopped := false }

/-- C1 counterexample: with the engine flat and the last prepared row
classified oversold, a FAILING sink call still leaves the position mutated
to 1 (long) — `self.position = 1` is executed before
`send_message_to_telegram`, so a sink failure does not leave the position
state unchanged, contradicting the claim. -/
theorem claim1_counterexample :
    flatOversoldState.position = 0 ∧
    (execute_messages false flatOversoldState).1.position = 1 ∧
    (execute_messages false flatOversoldState).2 = [] ∧
    (execute_messages false flatOversoldState).1.stopped = true := by
  decide

/-- C1 amended: on a firing transition (flat with oversold last row, or
long with overbought last row) the position is assigned BEFORE the sink
call, so the new position is stored whether or not the sink call succeeds;
a sink failure additionally stops the websocket manager (fail-stop), and a
success leaves the stop flag as it was. -/
theorem claim1_amended (st : MState) (p : Prepared) (sinkOk : Bool) (lastPos : Int)
    (hp : st.prepared = some p) (hl : p.position.getLast? = some lastPos) :
    (lastPos = 1 → st.position = 0 →
      (execute_messages sinkOk st).1.position = 1 ∧
      (execute_messages sinkOk st).1.stopped = (st.stopped || !sinkOk)) ∧
    (lastPos = -1 → st.position = 1 →
      (execute_messages sinkOk st).1.position = 0 ∧
      (execute_messages sinkOk st).1.stopped = (st.stopped || !sinkOk)) := by
  constructor
  · intro h1 h2
    subst h1
    cases sinkOk <;> simp [execute_messages, hp, hl, h2]
  · intro h1 h2
    subst h1
    cases sinkOk <;> simp [execute_messages, hp, hl, h2]

/-- C1 witness: the amended theorem applied to the concrete flat-oversold
state with a failing sink. -/
theorem claim1_witness :
    flatOversoldState.prepared = some oversoldPrepared ∧
    oversoldPrepared.position.getLast? = some 1 ∧
    (execute_messages false flatOversoldState).1.position = 1 ∧
    (execute_messages false flatOversoldState).1.stopped =
      (flatOversoldState.stopped || !false) :=
  ⟨rfl, rfl,
    (claim1_amended flatOversoldState oversoldPrepared false 1 rfl rfl).1
      rfl rfl⟩

/-- Store for the stale-update counterexample: a complete bar at time 1
and the in-progress tail at time 2. -/
def staleStore : List Bar :=
  [{ t := 1, o := 1, hi := 1, lo := 1, c := 10, v := 1, complete := true },
   { t := 2, o := 1, hi := 1, lo := 1, c := 20, v := 1, complete := false }]

/-- Engine state holding `staleStore`. -/
def staleState : MState :=
  { data := staleStore, prepared := none, position := 0, stopped := false }

/-- A live update whose timestamp 1 is strictly less than the tail
timestamp 2. -/
def staleUpd : Upd :=
  { t := 1, o := 2, hi := 2, lo := 2, c := 99, v := 2, x := false }

/-- An update at the fresh timestamp 0, strictly less than the tail
timestamp 2 and matching no stored bar. -/
def staleFreshUpd : Upd :=
  { t := 0, o := 2, hi := 2, lo := 2, c := 99, v := 2, x := false }

/-- C2 counterexample: a stale update (timestamp 1 < tail timestamp 2)
does not leave the store unchanged and raises no error: it overwrites the
earlier bar in place; and a stale update at an unseen timestamp 0 is
appended after the tail, out of chronological order. -/
theorem claim2_counterexample :
    staleUpd.t < 2 ∧
    staleState.data.getLast? =
      some { t := 2, o := 1, hi := 1, lo := 1, c := 20, v := 1, complete := false } ∧
    ((stream_candles true staleState staleUpd).1).data ≠ staleState.data ∧
    ((stream_candles true staleState staleUpd).1).data =
      [barOfUpd staleUpd,
       { t := 2, o := 1, hi := 1, lo := 1, c := 20, v := 1, complete := false }] ∧
    ((stream_candles true staleState staleFreshUpd).1).data =
      staleStore ++ [barOfUpd staleFreshUpd] := by
  decide

/-- C2 amended: an update whose timestamp is strictly less than the tail
bar's timestamp is not rejected and the store does not stay unchanged: the
update's row is written into the store — overwriting the bar carrying that
timestamp when one exists, and otherwise appended after the tail, leaving
the store out of chronological order; no error is raised. -/
theorem claim2_amended (sinkOk : Bool) (st : MState) (u : Upd) (tb : Bar)
    (htail : st.data.getLast? = some tb) (hstale : u.t < tb.t) :
    ((stream_candles sinkOk st u).1).data = setRow st.data (barOfUpd u) ∧
    barOfUpd u ∈ ((stream_candles sinkOk st u).1).data ∧
    ((∀ r ∈ st.data, r.t ≠ u.t) →
      ((stream_candles sinkOk st u).1).data = st.data ++ [barOfUpd u]) := by
  refine ⟨stream_candles_data sinkOk st u, ?_, ?_⟩
  · rw [stream_candles_data]
    exact mem_setRow st.data (barOfUpd u)
  · intro h
    rw [stream_candles_data]
    exact setRow_append st.data (barOfUpd u) h

/-- C2 witness: the amended theorem applied to the concrete stale update
at the unseen timestamp 0. -/
theorem claim2_witness :
    staleState.data.getLast? =
      some { t := 2, o := 1, hi := 1, lo := 1, c := 20, v := 1, complete := false } ∧
    staleFreshUpd.t < 2 ∧
    ((stream_candles true staleState staleFreshUpd).1).data =
      staleState.data ++ [barOfUpd staleFreshUpd] :=
  ⟨by decide, by decide,
    (claim2_amended true staleState staleFreshUpd
        { t := 2, o := 1, hi := 1, lo := 1, c := 20, v := 1, complete := false }
        (by decide) (by decide)).2.2
      (by decide)⟩

/-- Store whose only bar — the tail — is still incomplete. -/
def incompleteTailState : MState :=
  { data := [{ t := 1, o := 1, hi := 1, lo := 1, c := 10, v := 1, complete := false }],
    prepared := none, position := 0, stopped := false }

/-- An is-final update at the later timestamp 2. -/
def laterUpd : Upd :=
  { t := 2, o := 2, hi := 2, lo := 2, c := 11, v := 2, x := true }

/-- C3 counterexample: an update with a timestamp strictly greater than
the tail's is appended even though the tail bar is NOT complete — no
`OutOfOrderUpdate` failure occurs and a new bar is appended, contradicting
the claim. -/
theorem claim3_counterexample :
    (incompleteTailState.data.getLast?.map Bar.complete) = some false ∧
    laterUpd.t = 2 ∧
    (incompleteTailState.data.getLast?.map Bar.t) = some 1 ∧
    ((stream_candles true incompleteTailState laterUpd).1).data =
      incompleteTailState.data ++ [barOfUpd laterUpd] := by
  decide

/-- C3 amended: an update whose timestamp is strictly greater than every
stored bar's timestamp is always appended as a new bar (with `complete`
set to the update's is-final flag), whether or not the tail bar is
complete; no failure occurs. -/
theorem claim3_amended (sinkOk : Bool) (st : MState) (u : Upd)
    (hfresh : ∀ r ∈ st.data, r.t < u.t) :
    ((stream_candles sinkOk st u).1).data = st.data ++ [barOfUpd u] ∧
    (barOfUpd u).complete = u.x := by
  refine ⟨?_, rfl⟩
  rw [stream_candles_data]
  exact setRow_append st.data (barOfUpd u) (fun r hr => Nat.ne_of_lt (hfresh r hr))

/-- C3 witness: the amended theorem applied to the incomplete-tail store
and the later update. -/
theorem claim3_witness :
    ((stream_candles true incompleteTailState laterUpd).1).data =
      incompleteTailState.data ++ [barOfUpd laterUpd] ∧
    (barOfUpd laterUpd).complete = laterUpd.x :=
  claim3_amended true incompleteTailState laterUpd (by decide)

/-- Store whose tail bar at time 1 is already complete. -/
def completeTailState : MState :=
  { data := [{ t := 1, o := 1, hi := 1, lo := 1, c := 10, v := 1, complete := true }],
    prepared := none, position := 0, stopped := false }

/-- A repeated is-final update for the already-complete tail bar. -/
def repeatFinalUpd : Upd :=
  { t := 1, o := 1, hi := 1, lo := 1, c := 10, v := 1, x := true }

/-- C4 counterexample: an is-final update whose timestamp equals a tail
bar that is ALREADY complete still triggers a (second) indicator/signal
recomputation — the code branches on the update's `x` flag alone, not on
an incomplete-to-complete transition, contradicting the claim. -/
theorem claim4_counterexample :
    (completeTailState.data.getLast?.map Bar.complete) = some true ∧
    repeatFinalUpd.x = true ∧
    (completeTailState.data.getLast?.map Bar.t) = some repeatFinalUpd.t ∧
    (stream_candles true completeTailState repeatFinalUpd).2.2 = true := by
  decide

/-- C4 amended: indicator recomputation and signal evaluation are
triggered exactly when the update's is-final flag is set, regardless of
whether the affected bar was already complete; an update with
`isFinal = false` never triggers recomputation. -/
theorem claim4_amended (sinkOk : Bool) (st : MState) (u : Upd) :
    (stream_candles sinkOk st u).2.2 = u.x := by
  cases hx : u.x <;> simp [stream_candles, hx]

/-- C5 amended: on a series with at least 20 observations whose last bands
are defined, the latest bar's classification follows the rule with the
OVERBOUGHT test winning: `close >= upper_band` yields -1, otherwise
`close <= lower_band` yields 1, otherwise 0; both comparisons are
inclusive, and when the bands coincide and the close equals them the
result is -1 (overbought), because the -1 assignment runs last. -/
theorem claim5_amended (closes : List ℚ) (cl ub lb : ℚ)
    (hwin : win ≤ closes.length)
    (hcl : closes.getLast? = some cl)
    (hub : (define_strategy_df closes).upper_band.getLast? = some (some ub))
    (hlb : (define_strategy_df closes).lower_band.getLast? = some (some lb)) :
    (define_strategy_df closes).position.getLast? =
      some (if ub ≤ cl then -1 else if cl ≤ lb then 1 else 0) := by
  have h := getLast?_positionSeries closes cl (some ub) (some lb) hcl hub hlb
  show (positionSeries closes).getLast? = _
  rw [h]
  simp [optGe, optLe]

section NumericEvaluation

attribute [local semireducible] Rat.add Rat.sub Rat.mul Rat.inv

set_option maxRecDepth 8000 in
/-- C5 counterexample: twenty equal closes of 1 give a zero standard
deviation, so the bands coincide with the close; the oversold condition
`close <= lower_band` holds (a tie), yet the classification is -1
(overbought), not +1 (oversold) — the sell assignment overwrites the buy
assignment, contradicting the claim that the oversold rule is checked
first. -/
theorem claim5_counterexample :
    (List.replicate 20 (1 : ℚ)).getLast? = some 1 ∧
    (define_strategy_df (List.replicate 20 (1 : ℚ))).lower_band.getLast? =
      some (some 1) ∧
    (define_strategy_df (List.replicate 20 (1 : ℚ))).upper_band.getLast? =
      some (some 1) ∧
    optLe 1 (some 1) = true ∧
    (define_strategy_df (List.replicate 20 (1 : ℚ))).position.getLast? ≠
      some 1 ∧
    (define_strategy_df (List.replicate 20 (1 : ℚ))).position.getLast? =
      some (-1) := by
  decide

set_option maxRecDepth 8000 in
/-- C5 witness: the amended theorem applied to the twenty constant
closes. -/
theorem claim5_witness :
    win ≤ (List.replicate 20 (1 : ℚ)).length ∧
    (define_strategy_df (List.replicate 20 (1 : ℚ))).position.getLast? =
      some (if (1 : ℚ) ≤ 1 then -1 else if (1 : ℚ) ≤ 1 then 1 else 0) :=
  ⟨by decide,
    claim5_amended (List.replicate 20 1) 1 1 1 (by decide) (by decide)
      (by decide) (by decide)⟩

/-- C6: starting flat, three oversold bars fire exactly one enter
notification, on the first bar, and leave the engine long; once long, an
oversold or neutral bar (any classification other than overbought) changes
nothing and emits nothing, and an overbought bar returns the engine to
flat with one exit notification. -/
theorem claim6_debounce (c : Int) (hc : c ≠ -1) :
    runSignals 0 [1, 1, 1] = (1, [Notice.enterSig]) ∧
    signalStep 0 1 = (1, [Notice.enterSig]) ∧
    signalStep 1 1 = (1, []) ∧
    signalStep 1 c = (1, []) ∧
    signalStep 1 (-1) = (0, [Notice.exitSig]) := by
  refine ⟨by decide, by decide, by decide, ?_, by decide⟩
  rw [signalStep_eq,
    if_neg (by rintro ⟨-, h⟩; exact absurd h (by decide)),
    if_neg (by rintro ⟨h, -⟩; exact hc h)]

/-- C6 witness: the debouncing theorem applied at the neutral
classification 0. -/
theorem claim6_witness :
    runSignals 0 [1, 1, 1] = (1, [Notice.enterSig]) ∧
    signalStep 0 1 = (1, [Notice.enterSig]) ∧
    signalStep 1 1 = (1, []) ∧
    signalStep 1 0 = (1, []) ∧
    signalStep 1 (-1) = (0, [Notice.exitSig]) :=
  claim6_debounce 0 (by decide)

/-- C7: bootstrapping from a non-empty, strictly time-ordered kline list
stores exactly those bars, every bar except the last marked complete and
the last marked incomplete; an empty kline list fails with
`InvalidBootstrap`. -/
theorem claim7_bootstrap :
    get_most_recent [] = Except.error BootstrapError.InvalidBootstrap ∧
    ∀ (bars : List RawBar), bars ≠ [] →
      List.Pairwise (fun a b => a.t < b.t) bars →
      ∃ res : List Bar, get_most_recent bars = Except.ok res ∧
        res.length = bars.length ∧
        ∀ (i : ℕ) (r : RawBar), bars[i]? = some r →
          res[i]? = some { t := r.t, o := r.o, hi := r.hi, lo := r.lo,
                           c := r.c, v := r.v,
                           complete := decide (i + 1 < bars.length) } := by
  constructor
  · rfl
  · intro bars hne hsort
    have hemp : bars.isEmpty = false := by
      cases bars with
      | nil => exact absurd rfl hne
      | cons b bs => rfl
    have hn : 0 < bars.length := List.length_pos.mpr hne
    refine ⟨List.zipWith
        (fun (r : RawBar) (flag : Bool) =>
          ({ t := r.t, o := r.o, hi := r.hi, lo := r.lo, c := r.c, v := r.v,
             complete := flag } : Bar))
        bars (List.replicate (bars.length - 1) true ++ [false]),
      by simp [get_most_recent, hemp], ?_, ?_⟩
    · simp
      omega
    · intro i r hir
      have hi : i < bars.length := by
        by_contra hge
        rw [List.getElem?_eq_none (by omega)] at hir
        cases hir
      have hflag : (List.replicate (bars.length - 1) true ++ [false])[i]? =
          some (decide (i + 1 < bars.length)) := by
        rcases Nat.lt_or_ge i (bars.length - 1) with hlt | hge
        · rw [List.getElem?_append_left (by simpa using hlt),
            List.getElem?_replicate_of_lt hlt]
          have : decide (i + 1 < bars.length) = true := decide_eq_true (by omega)
          rw [this]
        · have hieq : i - (List.replicate (bars.length - 1) true).length = 0 := by
            simp
            omega
          rw [List.getElem?_append_right (by simpa using hge), hieq]
          have : decide (i + 1 < bars.length) = false :=
            decide_eq_false (by omega)
          rw [this]
          rfl
      simp [List.getElem?_zipWith, hir, hflag]

/-- Concrete two-bar kline list for the bootstrap witness. -/
def twoRawBars : List RawBar :=
  [{ t := 1, o := 1, hi := 1, lo := 1, c := 1, v := 1 },
   { t := 2, o := 2, hi := 2, lo := 2, c := 2, v := 2 }]

/-- C7 witness: the bootstrap theorem applied to a concrete two-bar
kline list. -/
theorem claim7_witness :
    ∃ res : List Bar,
      get_most_recent twoRawBars = Except.ok res ∧
      res.length = twoRawBars.length ∧
      ∀ (i : ℕ) (r : RawBar), twoRawBars[i]? = some r →
        res[i]? = some { t := r.t, o := r.o, hi := r.hi, lo := r.lo,
                         c := r.c, v := r.v,
                         complete := decide (i + 1 < twoRawBars.length) } :=
  claim7_bootstrap.2 twoRawBars (by decide) (by simp [twoRawBars])

set_option maxRecDepth 8000 in
/-- C8: with a non-empty store of fewer than 20 bars the indicator window
is underflowed, the latest bar's classification is 0 (neutral) whatever
its close price, and the signal step neither changes the engine state nor
emits a notification; with 20 bars a non-neutral classification is
possible (witnessed by twenty constant closes classifying -1). -/
theorem claim8_underflow (st : MState) (sinkOk : Bool)
    (h1 : 0 < st.data.length) (h2 : st.data.length < win) :
    ∃ p, (define_strategy st).prepared = some p ∧
      p.position.getLast? = some 0 ∧
      execute_messages sinkOk (define_strategy st) = (define_strategy st, []) ∧
      (define_strategy_df (List.replicate win (1 : ℚ))).position.getLast? =
        some (-1) := by
  have hlen : (st.data.map Bar.c).length = st.data.length := by simp
  have hup := getLast?_upperBandSeries_underflow (st.data.map Bar.c)
    (by omega) (by omega)
  have hlo := getLast?_lowerBandSeries_underflow (st.data.map Bar.c)
    (by omega) (by omega)
  have hnil : st.data.map Bar.c ≠ [] := by
    intro h
    rw [← List.length_eq_zero] at h
    omega
  obtain ⟨cl, hcl⟩ : ∃ cl, (st.data.map Bar.c).getLast? = some cl :=
    Option.isSome_iff_exists.mp (List.getLast?_isSome.mpr hnil)
  have hlast := getLast?_positionSeries (st.data.map Bar.c) cl none none
    hcl hup hlo
  have hlast0 : (positionSeries (st.data.map Bar.c)).getLast? = some 0 := by
    simpa [optGe, optLe] using hlast
  refine ⟨define_strategy_df (st.data.map Bar.c), rfl, hlast0, ?_, by decide⟩
  exact execute_messages_neutral sinkOk (define_strategy st)
    (define_strategy_df (st.data.map Bar.c)) rfl hlast0

/-- C8 witness: the underflow theorem applied to the one-bar store. -/
theorem claim8_witness :
    0 < completeTailState.data.length ∧
    completeTailState.data.length < win ∧
    ∃ p, (define_strategy completeTailState).prepared = some p ∧
      p.position.getLast? = some 0 ∧
      execute_messages true (define_strategy completeTailState) =
        (define_strategy completeTailState, []) ∧
      (define_strategy_df (List.replicate win (1 : ℚ))).position.getLast? =
        some (-1) :=
  ⟨by decide, by decide, claim8_underflow completeTailState true
    (by decide) (by decide)⟩

end NumericEvaluation

/-- C9: `define_strategy` is a pure, idempotent reader of the bar store:
running it twice from an unchanged store produces exactly the same state
(hence identical indicator columns and classifications) as running it
once, and running it leaves the store, the held position and the stop
flag untouched. -/
theorem claim9_idempotent (st : MState) :
    define_strategy (define_strategy st) = define_strategy st ∧
    (define_strategy st).data = st.data ∧
    (define_strategy st).position = st.position ∧
    (define_strategy st).stopped = st.stopped :=
  ⟨rfl, rfl, rfl, rfl⟩

/-- C10: a signal step from a position in {0, 1} lands in {0, 1}; from any
other initial position (such as -1, which the constructor accepts) no
classification and no classification sequence ever changes the position or
emits a notification. -/
theorem claim10_invariant (pos c : Int) (cs : List Int) :
    ((pos = 0 ∨ pos = 1) →
      ((signalStep pos c).1 = 0 ∨ (signalStep pos c).1 = 1)) ∧
    (pos ≠ 0 → pos ≠ 1 →
      signalStep pos c = (pos, []) ∧ runSignals pos cs = (pos, [])) := by
  constructor
  · intro hp
    rw [signalStep_eq]
    split
    · right
      rfl
    · split
      · left
        rfl
      · simpa using hp
  · intro h0 h1
    have hstep : signalStep pos c = (pos, []) := by
      rw [signalStep_eq,
        if_neg (by rintro ⟨-, h⟩; exact h0 h),
        if_neg (by rintro ⟨-, h⟩; exact h1 h)]
    exact ⟨hstep, runSignals_frozen_aux pos h0 h1 cs (pos, []) rfl⟩

/-- C10 witness: the invariant theorem applied at position -1 (the short
value the constructor documents) and at position 0. -/
theorem claim10_witness :
    (signalStep (-1) 1 = (-1, []) ∧ runSignals (-1) [1, 0, -1] = (-1, [])) ∧
    ((signalStep 0 5).1 = 0 ∨ (signalStep 0 5).1 = 1) :=
  ⟨(claim10_invariant (-1) 1 [1, 0, -1]).2 (by decide) (by decide),
   (claim10_invariant 0 5 []).1 (Or.inl rfl)⟩

end Monitoring
